import Mathlib

/-! golinterror: the `header` program

A shallow embedding of `header.go` (package `main`) and of the part of Go's
`fmt.Println` that the program exercises, followed by theorems about what a run
of `main` stores and prints.

The program is

    h := &header{}
    h.value1 = "foo"
    h.value2 = -2593
    h.value3 = 29384
    fmt.Println("%#v", h)

State is passed explicitly: a heap of `header` cells, the text written to
standard output, and a log of the field stores that were executed.  Everything a
run could observe from outside is gathered in `Env`, including how the write to
standard output ends: in full, with an error after part of the line, or with the
death of the process on a broken pipe.  The Go types `int` and
`uint` are modelled by `Int` and `Nat` with an explicit reduction modulo `2 ^ w`
at every store, `w` being the word size of the platform.
-/

namespace Golinterror

/-! ## Machine integers -/

/-- Word size of the platform: Go's `int` and `uint` are 32 or 64 bits wide. -/
inductive Arch where
  | bits32
  | bits64
  deriving DecidableEq, Repr

/-- Number of bits of `int` and `uint` on the platform. -/
def Arch.bits : Arch → Nat
  | .bits32 => 32
  | .bits64 => 64

/-- Value held by a `uint` after storing the integer `i`: `i` modulo `2 ^ w`. -/
def toUint (a : Arch) (i : Int) : Nat :=
  (i % (2 ^ a.bits : Int)).toNat

/-- Value held by an `int` after storing the integer `i`: the representative of
`i` modulo `2 ^ w` in the two's complement range `[-2 ^ (w-1), 2 ^ (w-1))`. -/
def toInt (a : Arch) (i : Int) : Int :=
  (i + (2 ^ (a.bits - 1) : Int)) % (2 ^ a.bits : Int) - (2 ^ (a.bits - 1) : Int)

/-! ## Data model -/

/-- The struct `headerVersionOne { value1 string; value2 int; value3 uint }`. -/
structure headerVersionOne where
  value1 : String
  value2 : Int
  value3 : Nat
  deriving DecidableEq, Repr

/-- The declaration `type header headerVersionOne`: same underlying struct. -/
abbrev header := headerVersionOne

/-- The composite literal `header{}`: every field at its zero value. -/
def header.zero : header :=
  { value1 := "", value2 := 0, value3 := 0 }

/-- The three fields of `header`, in declaration order. -/
inductive Field where
  | value1
  | value2
  | value3
  deriving DecidableEq, Repr

/-- A literal on the right-hand side of an assignment. -/
inductive Literal where
  | text (s : String)
  | number (i : Int)
  deriving DecidableEq, Repr

/-- A `*header`: `none` is the nil pointer, `some a` the heap cell at index `a`. -/
abbrev Ptr := Option Nat

/-- How the write of a line to standard output ends.  The stream is modelled as
text and `n` counts characters; the lines of this program are ASCII, one byte
per character. -/
inductive WriteOutcome where
  /-- The stream takes the whole line. -/
  | complete
  /-- The stream takes the first `n` bytes of the line, `n` below its length, then
  the write returns an error (a closed descriptor takes none). -/
  | failed (n : Nat)
  /-- The reader of the pipe is gone: the stream takes the first `n` bytes, the
  write fails with `EPIPE`, and the Go runtime raises `SIGPIPE`, which ends the
  process. -/
  | brokenPipe (n : Nat)
  deriving DecidableEq, Repr

/-- What a run can observe from outside: platform word size, command-line
arguments, environment variables, and how a write to standard output ends. -/
structure Env where
  arch : Arch
  args : List String
  environ : List (String × String)
  write : WriteOutcome
  deriving DecidableEq, Repr

/-- Whether a write to standard output succeeds. -/
def Env.stdoutOk (env : Env) : Bool :=
  match env.write with
  | .complete => true
  | .failed _ => false
  | .brokenPipe _ => false

/-- Program state: the heap cells allocated so far, the text written to standard
output so far, and the log of executed field stores (oldest first).  The log is
bookkeeping of the embedding: no statement reads it. -/
structure State where
  heap : List header
  stdout : String
  assigned : List (Field × Literal)
  deriving DecidableEq, Repr

/-- Abnormal ends of a run: the two faults of a pointer access, and the death of
the process by `SIGPIPE`, with the text standard output had taken by then. -/
inductive Fault where
  | nilDereference
  | invalidAddress
  | sigpipe (written : String)
  deriving DecidableEq, Repr

/-! ## Heap operations -/

/-- The expression `&header{}`: allocates a fresh zeroed cell, returns its address. -/
def newHeader (s : State) : Except Fault (Ptr × State) :=
  .ok (some s.heap.length, { s with heap := s.heap ++ [header.zero] })

/-- Reads the struct a pointer refers to. -/
def load (p : Ptr) (s : State) : Except Fault header :=
  match p with
  | none => .error .nilDereference
  | some a =>
    match s.heap[a]? with
    | none => .error .invalidAddress
    | some r => .ok r

/-- A field store through a pointer, `p.f = lit`: replaces the cell by its image
under `upd` and appends `(f, lit)` to the log.  Faults like `load`. -/
def store (p : Ptr) (f : Field) (lit : Literal) (upd : header → header) (s : State) :
    Except Fault State :=
  match p with
  | none => .error .nilDereference
  | some a =>
    match s.heap[a]? with
    | none => .error .invalidAddress
    | some r =>
      .ok { s with heap := s.heap.set a (upd r), assigned := s.assigned ++ [(f, lit)] }

/-- The statement `p.value1 = v` for a string literal `v`. -/
def assignValue1 (p : Ptr) (v : String) (s : State) : Except Fault State :=
  store p .value1 (.text v) (fun r => { r with value1 := v }) s

/-- The statement `p.value2 = v` for an integer literal `v`, stored in an `int`.
The reduction to the range of `int` is kept at the store, so that the absence of
wrap-around is proved rather than assumed. -/
def assignValue2 (a : Arch) (p : Ptr) (v : Int) (s : State) : Except Fault State :=
  store p .value2 (.number v) (fun r => { r with value2 := toInt a v }) s

/-- The statement `p.value3 = v` for an integer literal `v`, stored in a `uint`,
with the reduction to the range of `uint` at the store. -/
def assignValue3 (a : Arch) (p : Ptr) (v : Int) (s : State) : Except Fault State :=
  store p .value3 (.number v) (fun r => { r with value3 := toUint a v }) s

/-! ## `fmt.Println`

`fmt` is Go's standard library, not part of this repository; what follows embeds
the part of it the call `fmt.Println("%#v", h)` exercises, after the package
documentation.  `Println` formats every operand with the default format (verb
`v`, no flags set: it has no format string and interprets none of its operands),
writes a space between operands and a newline at the end, and issues one write.
Under the default format a string prints as itself, signed and unsigned integers
print in base 10, a struct prints as `{field0 field1 ...}`, and a non-nil pointer
to a struct that is itself an operand prints as `&` followed by the struct.  The
type `*header` has no `Format`, `Error` or `String` method, so no method takes
over the formatting. -/

/-- A field value as seen by the formatter. -/
inductive Value where
  | string (s : String)
  | int (i : Int)
  | uint (n : Nat)
  deriving DecidableEq, Repr

/-- An operand of a print call. -/
inductive Operand where
  | string (s : String)
  | pointer (p : Ptr)
  deriving DecidableEq, Repr

/-- The fields of a `header` in declaration order. -/
def header.fields (r : header) : List Value :=
  [.string r.value1, .int r.value2, .uint r.value3]

/-- Base-10 rendering of an unsigned integer. -/
def fmtUnsigned (n : Nat) : String :=
  String.mk (Nat.toDigits 10 n)

/-- Base-10 rendering of a signed integer: a minus sign and the magnitude when
negative. -/
def fmtSigned (i : Int) : String :=
  if i < 0 then "-" ++ fmtUnsigned i.natAbs else fmtUnsigned i.natAbs

/-- Default format of a field value. -/
def formatValue : Value → String
  | .string s => s
  | .int i => fmtSigned i
  | .uint n => fmtUnsigned n

/-- Field values with a space before every field but the first. -/
def formatFields : List Value → String
  | [] => ""
  | [v] => formatValue v
  | v :: vs => formatValue v ++ " " ++ formatFields vs

/-- Default format of a struct: `{field0 field1 ...}`. -/
def formatStruct (fields : List Value) : String :=
  "\x7b" ++ formatFields fields ++ "\x7d"

/-- Default format of one operand.  A nil pointer prints as `<nil>`. -/
def printArg (s : State) : Operand → Except Fault String
  | .string str => .ok str
  | .pointer none => .ok "<nil>"
  | .pointer (some a) =>
    match load (some a) s with
    | .error e => .error e
    | .ok r => .ok ("&" ++ formatStruct r.fields)

/-! ### The Go-syntax format

What the verb `%#v` of `fmt.Printf` renders, for comparison: `Println` never
applies it.  Under it a struct prints its type name and, before every field, the
name of the field and a colon, with `, ` between fields; a string prints quoted,
a signed integer in base 10, an unsigned integer in base 16 after `0x`.  The
quoting function of the library, `strconv.Quote`, is taken as the parameter
`quote`. -/

/-- Name of the type `header` as reflection reports it: package, dot, type. -/
def header.typeName : String :=
  "main.header"

/-- The fields of a `header` with their names, in declaration order. -/
def header.namedFields (r : header) : List (String × Value) :=
  [("value1", .string r.value1), ("value2", .int r.value2), ("value3", .uint r.value3)]

/-- Go-syntax format of a field value. -/
def goSyntaxValue (quote : String → String) : Value → String
  | .string s => quote s
  | .int i => fmtSigned i
  | .uint n => "0x" ++ String.mk (Nat.toDigits 16 n)

/-- Go-syntax format of one field: its name and a colon when it has a name, then
its value. -/
def goSyntaxField (quote : String → String) (name : String) (v : Value) : String :=
  if name ≠ "" then name ++ ":" ++ goSyntaxValue quote v else goSyntaxValue quote v

/-- Named fields with a comma and a space before every field but the first. -/
def goSyntaxFields (quote : String → String) : List (String × Value) → String
  | [] => ""
  | [(name, v)] => goSyntaxField quote name v
  | (name, v) :: fs => goSyntaxField quote name v ++ ", " ++ goSyntaxFields quote fs

/-- Go-syntax format of a struct: `T{name0:field0, name1:field1, ...}`. -/
def goSyntaxStruct (quote : String → String) (typeName : String)
    (fields : List (String × Value)) : String :=
  typeName ++ "\x7b" ++ goSyntaxFields quote fields ++ "\x7d"

/-- Go-syntax format of one operand.  A nil `*header` prints as
`(*main.header)(nil)`. -/
def printArgGoSyntax (quote : String → String) (s : State) :
    Operand → Except Fault String
  | .string str => .ok (quote str)
  | .pointer none => .ok ("(*" ++ header.typeName ++ ")(nil)")
  | .pointer (some a) =>
    match load (some a) s with
    | .error e => .error e
    | .ok r => .ok ("&" ++ goSyntaxStruct quote header.typeName r.namedFields)

/-- The operands with a space before every operand but the first. -/
def printOperands (s : State) : List Operand → Except Fault String
  | [] => .ok ""
  | [x] => printArg s x
  | x :: xs =>
    match printArg s x with
    | .error e => .error e
    | .ok t =>
      match printOperands s xs with
      | .error e => .error e
      | .ok rest => .ok (t ++ " " ++ rest)

/-- The line `Println` builds: the operands followed by a newline. -/
def doPrintln (s : State) (ops : List Operand) : Except Fault String :=
  match printOperands s ops with
  | .error e => .error e
  | .ok t => .ok (t ++ "\n")

/-- The first `n` characters of a line: what a stream that stops after `n` has
taken. -/
def firstPart (n : Nat) (line : String) : String :=
  String.mk (line.toList.take n)

/-- The error value a failed write returns. -/
inductive WriteError where
  | failed
  deriving DecidableEq, Repr

/-- The call `fmt.Println(ops...)`: one write of the formatted line to standard
output.  Returns the number of bytes written and the write error, if any.  A
write that fails leaves on the stream the part of the line it had taken; on a
broken pipe the process ends inside the write and the call does not return. -/
def Println (env : Env) (ops : List Operand) (s : State) :
    Except Fault ((Nat × Option WriteError) × State) :=
  match doPrintln s ops with
  | .error e => .error e
  | .ok line =>
    match env.write with
    | .complete =>
      .ok ((line.utf8ByteSize, none), { s with stdout := s.stdout ++ line })
    | .failed n =>
      .ok (((firstPart n line).utf8ByteSize, some .failed),
        { s with stdout := s.stdout ++ firstPart n line })
    | .brokenPipe n =>
      .error (.sigpipe (s.stdout ++ firstPart n line))

/-! ## The program -/

/-- The statements of `main` before the print call; returns the pointer `h` and
the state in which `fmt.Println` is called. -/
def mainBeforePrint (env : Env) (s : State) : Except Fault (Ptr × State) := do
  let (h, s) ← newHeader s
  let s ← assignValue1 h "foo" s
  let s ← assignValue2 env.arch h (-2593) s
  let s ← assignValue3 env.arch h 29384 s
  pure (h, s)

/-- The function `main`.  The results of `fmt.Println` are discarded, so `main`
returns normally also when the write returned an error. -/
def main (env : Env) (s : State) : Except Fault State := do
  let (h, s) ← mainBeforePrint env s
  let (_, s) ← Println env [.string "%#v", .pointer h] s
  pure s

/-- State of a process at the start of `main`: nothing written, no store executed
yet; the heap is whatever the runtime left there. -/
def State.start (heap : List header) : State :=
  { heap := heap, stdout := "", assigned := [] }

/-- A run of the program. -/
def run (env : Env) (heap : List header) : Except Fault State :=
  main env (State.start heap)

/-- The text a run writes to standard output, with how the run ends: `.ok` when
`main` returns, `.error` when the run ends abnormally. -/
def output (env : Env) (heap : List header) : Except Fault String :=
  match run env heap with
  | .error e => .error e
  | .ok s => .ok s.stdout

/-! ## Values of the program, named for the statements below -/

/-- The record made of the three literals `main` assigns. -/
def builtRecord : header :=
  { value1 := "foo", value2 := -2593, value3 := 29384 }

/-- The three assignments of `main` as log entries, in program order. -/
def mainStores : List (Field × Literal) :=
  [(.value1, .text "foo"), (.value2, .number (-2593)), (.value3, .number 29384)]

/-- The line `&header` with these field values prints as, after `%#v` and a space. -/
def mainLine : String :=
  "%#v &\x7bfoo -2593 29384\x7d\n"

/-! ## Helper lemmas -/

theorem toInt_lit (a : Arch) : toInt a (-2593) = -2593 := by
  cases a <;> rfl

theorem toUint_lit (a : Arch) : toUint a 29384 = 29384 := by
  cases a <;> rfl

theorem mainBeforePrint_eq (env : Env) (s : State) :
    mainBeforePrint env s =
      .ok (some s.heap.length,
        { heap := s.heap ++ [builtRecord], stdout := s.stdout,
          assigned := s.assigned ++ mainStores }) := by
  simp [mainBeforePrint, newHeader, assignValue1, assignValue2, assignValue3, store,
    bind, Except.bind, pure, Except.pure, toInt_lit, toUint_lit, header.zero, builtRecord,
    mainStores]

theorem printArg_built (s : State) (a : Nat) (h : s.heap[a]? = some builtRecord) :
    printArg s (.pointer (some a)) = .ok "&\x7bfoo -2593 29384\x7d" := by
  simp only [printArg, load, h]
  rfl

theorem doPrintln_built (s : State) (a : Nat) (h : s.heap[a]? = some builtRecord) :
    doPrintln s [.string "%#v", .pointer (some a)] = .ok mainLine := by
  simp only [doPrintln, printOperands, printArg, load, h]
  rfl

theorem write_complete_of_stdoutOk (env : Env) (hw : env.stdoutOk = true) :
    env.write = .complete := by
  unfold Env.stdoutOk at hw
  cases h : env.write <;> simp_all

theorem main_eq_of_stdoutOk (env : Env) (s : State) (hw : env.stdoutOk = true) :
    main env s =
      .ok { heap := s.heap ++ [builtRecord], stdout := s.stdout ++ mainLine,
            assigned := s.assigned ++ mainStores } := by
  have hp := doPrintln_built
    { heap := s.heap ++ [builtRecord], stdout := s.stdout,
      assigned := s.assigned ++ mainStores } s.heap.length (by simp)
  simp [main, mainBeforePrint_eq, Println, hp, write_complete_of_stdoutOk env hw, bind,
    Except.bind, pure, Except.pure]

theorem run_eq_of_stdoutOk (env : Env) (heap : List header) (hw : env.stdoutOk = true) :
    run env heap =
      .ok { heap := heap ++ [builtRecord], stdout := mainLine, assigned := mainStores } := by
  simp [run, main_eq_of_stdoutOk env _ hw, State.start]

theorem output_eq_of_stdoutOk (env : Env) (heap : List header) (hw : env.stdoutOk = true) :
    output env heap = .ok mainLine := by
  simp [output, run_eq_of_stdoutOk env heap hw]

theorem run_start_empty :
    run ⟨.bits64, [], [], .complete⟩ [] =
      .ok { heap := [{ value1 := "foo", value2 := -2593, value3 := 29384 }],
            stdout := "%#v &\x7bfoo -2593 29384\x7d\n",
            assigned := [(.value1, .text "foo"), (.value2, .number (-2593)),
              (.value3, .number 29384)] } := by
  rfl

theorem run_stdout_closed :
    run ⟨.bits32, [], [], .failed 0⟩ [] =
      .ok { heap := [{ value1 := "foo", value2 := -2593, value3 := 29384 }],
            stdout := "",
            assigned := [(.value1, .text "foo"), (.value2, .number (-2593)),
              (.value3, .number 29384)] } := by
  rfl

theorem run_short_write :
    run ⟨.bits64, [], [], .failed 10⟩ [] =
      .ok { heap := [{ value1 := "foo", value2 := -2593, value3 := 29384 }],
            stdout := "%#v &\x7bfoo ",
            assigned := [(.value1, .text "foo"), (.value2, .number (-2593)),
              (.value3, .number 29384)] } := by
  rfl

theorem run_broken_pipe :
    run ⟨.bits64, [], [], .brokenPipe 0⟩ [] = .error (.sigpipe "") := by
  rfl

theorem goSyntax_built (quote : String → String) :
    "&" ++ goSyntaxStruct quote header.typeName builtRecord.namedFields =
      "&main.header\x7bvalue1:" ++ quote "foo" ++ ", value2:-2593, value3:0x72c8\x7d" := by
  apply String.ext
  simp [goSyntaxStruct, goSyntaxFields, goSyntaxField, goSyntaxValue, header.typeName,
    header.namedFields, builtRecord, String.data_append]
  rfl

theorem printArgGoSyntax_built (quote : String → String) (s : State) (a : Nat)
    (h : s.heap[a]? = some builtRecord) :
    printArgGoSyntax quote s (.pointer (some a)) =
      .ok ("&main.header\x7bvalue1:" ++ quote "foo" ++
        ", value2:-2593, value3:0x72c8\x7d") := by
  simp only [printArgGoSyntax, load, h]
  rw [goSyntax_built]

theorem infix_of_infix_left (x : List Char) (a q b : String) (h : x <:+: a.toList) :
    x <:+: (a ++ q ++ b).toList := by
  obtain ⟨u, v, huv⟩ := h
  refine ⟨u, v ++ q.toList ++ b.toList, ?_⟩
  simp only [String.toList, String.data_append] at huv ⊢
  rw [← huv]
  simp only [List.append_assoc]

theorem infix_of_infix_right (x : List Char) (a q b : String) (h : x <:+: b.toList) :
    x <:+: (a ++ q ++ b).toList := by
  obtain ⟨u, v, huv⟩ := h
  refine ⟨a.toList ++ q.toList ++ u, v, ?_⟩
  simp only [String.toList, String.data_append] at huv ⊢
  rw [← huv]
  simp only [List.append_assoc]

theorem goSyntax_ne_default (q : String) :
    "&main.header\x7bvalue1:" ++ q ++ ", value2:-2593, value3:0x72c8\x7d" ≠
      "&\x7bfoo -2593 29384\x7d" := by
  intro h
  have hd := congrArg String.data h
  simp [String.data_append] at hd

/-! ## What `main` prints -/

/-- C1: the text a run of `main` writes to standard output contains each of the
substrings `foo`, `-2593` and `29384`. -/
theorem output_contains_literals (env : Env) (heap : List header)
    (hw : env.stdoutOk = true) :
    ∃ s, run env heap = .ok s ∧
      "foo".toList <:+: s.stdout.toList ∧
      "-2593".toList <:+: s.stdout.toList ∧
      "29384".toList <:+: s.stdout.toList :=
  ⟨_, run_eq_of_stdoutOk env heap hw,
    show "foo".toList <:+: mainLine.toList by decide,
    show "-2593".toList <:+: mainLine.toList by decide,
    show "29384".toList <:+: mainLine.toList by decide⟩

theorem output_contains_literals_witness :
    (Env.stdoutOk ⟨.bits64, ["header"], [], .complete⟩ = true) ∧
    ∃ s, run ⟨.bits64, ["header"], [], .complete⟩ [] = .ok s ∧
      "foo".toList <:+: s.stdout.toList ∧
      "-2593".toList <:+: s.stdout.toList ∧
      "29384".toList <:+: s.stdout.toList :=
  ⟨rfl, output_contains_literals ⟨.bits64, ["header"], [], .complete⟩ [] rfl⟩

/-- C2: a run of `main` writes exactly one line: the written text ends with a
newline, that newline is the only one in it, and the rendering of the record
operand contains no newline. -/
theorem output_is_one_line (env : Env) (heap : List header)
    (hw : env.stdoutOk = true) :
    ∃ s, run env heap = .ok s ∧
      s.stdout.toList.getLast? = some '\n' ∧
      s.stdout.toList.count '\n' = 1 ∧
      s.stdout.toList.dropLast.count '\n' = 0 ∧
      ∃ p sp t, mainBeforePrint env (State.start heap) = .ok (p, sp) ∧
        printArg sp (.pointer p) = .ok t ∧ '\n' ∉ t.toList := by
  refine ⟨_, run_eq_of_stdoutOk env heap hw,
    show mainLine.toList.getLast? = some '\n' by decide,
    show mainLine.toList.count '\n' = 1 by decide,
    show mainLine.toList.dropLast.count '\n' = 0 by decide,
    _, _, "&\x7bfoo -2593 29384\x7d", mainBeforePrint_eq env (State.start heap), ?_, ?_⟩
  · exact printArg_built _ _ (by simp)
  · decide

theorem output_is_one_line_witness :
    (Env.stdoutOk ⟨.bits32, [], [("HOME", "/root")], .complete⟩ = true) ∧
    ∃ s, run ⟨.bits32, [], [("HOME", "/root")], .complete⟩ [header.zero] = .ok s ∧
      s.stdout.toList.getLast? = some '\n' ∧
      s.stdout.toList.count '\n' = 1 ∧
      s.stdout.toList.dropLast.count '\n' = 0 ∧
      ∃ p sp t, mainBeforePrint ⟨.bits32, [], [("HOME", "/root")], .complete⟩
          (State.start [header.zero]) = .ok (p, sp) ∧
        printArg sp (.pointer p) = .ok t ∧ '\n' ∉ t.toList :=
  ⟨rfl, output_is_one_line ⟨.bits32, [], [("HOME", "/root")], .complete⟩ [header.zero] rfl⟩

/-- C3: in the state in which `main` calls `fmt.Println`, the record `h` points to
has value1 = "foo", value2 = -2593 and value3 = 29384; the stores executed so far
are one per field, each with its literal, and no field is at its zero value. -/
theorem record_at_print_call (env : Env) (heap : List header) :
    ∃ p s, mainBeforePrint env (State.start heap) = .ok (p, s) ∧
      main env (State.start heap) =
        (Println env [.string "%#v", .pointer p] s).map Prod.snd ∧
      load p s = .ok { value1 := "foo", value2 := -2593, value3 := 29384 } ∧
      s.assigned =
        [(.value1, .text "foo"), (.value2, .number (-2593)), (.value3, .number 29384)] ∧
      (∀ f : Field, (s.assigned.map Prod.fst).count f = 1) ∧
      (∀ r, load p s = .ok r → r.value1 ≠ "" ∧ r.value2 ≠ 0 ∧ r.value3 ≠ 0) := by
  refine ⟨_, _, mainBeforePrint_eq env (State.start heap), ?_, ?_, ?_, ?_, ?_⟩
  · simp [main, mainBeforePrint_eq, bind, Except.bind, pure, Except.pure, Except.map]
  · simp [load, builtRecord]
  · simp [State.start, mainStores]
  · intro f
    simp only [State.start, List.nil_append]
    cases f <;> decide
  · intro r hr
    simp [load, builtRecord] at hr
    subst hr
    decide



/-- C4, as stated, fails: a run whose standard output is closed writes nothing
and a run whose write succeeds writes the line, so two runs of `main` need not
write the same text. -/
theorem output_differs_when_write_fails :
    output ⟨.bits64, [], [], .complete⟩ [] = .ok "%#v &\x7bfoo -2593 29384\x7d\n" ∧
    output ⟨.bits64, [], [], .failed 0⟩ [] = .ok "" ∧
    output ⟨.bits64, [], [], .complete⟩ [] ≠ output ⟨.bits64, [], [], .failed 0⟩ [] := by
  refine ⟨rfl, rfl, fun h => ?_⟩
  have h' : "%#v &\x7bfoo -2593 29384\x7d\n" = "" := Except.ok.inj h
  exact absurd h' (by decide)

/-- C4, amended: two runs of `main` in which the write to standard output
succeeds write the same text, the constant line `%#v &{foo -2593 29384}` with
its newline, whatever the word size, the command-line arguments, the environment
variables and the heap each run starts from. -/
theorem output_same_when_writes_succeed (env₁ env₂ : Env) (heap₁ heap₂ : List header)
    (hw₁ : env₁.stdoutOk = true) (hw₂ : env₂.stdoutOk = true) :
    output env₁ heap₁ = output env₂ heap₂ ∧
      output env₁ heap₁ = .ok "%#v &\x7bfoo -2593 29384\x7d\n" := by
  rw [output_eq_of_stdoutOk env₁ heap₁ hw₁, output_eq_of_stdoutOk env₂ heap₂ hw₂]
  exact ⟨rfl, rfl⟩

theorem output_same_when_writes_succeed_witness :
    (Env.stdoutOk ⟨.bits64, ["a", "b"], [("PATH", "/bin")], .complete⟩ = true) ∧
    (Env.stdoutOk ⟨.bits32, [], [], .complete⟩ = true) ∧
    (output ⟨.bits64, ["a", "b"], [("PATH", "/bin")], .complete⟩ [] =
        output ⟨.bits32, [], [], .complete⟩ [⟨"x", 7, 9⟩] ∧
      output ⟨.bits64, ["a", "b"], [("PATH", "/bin")], .complete⟩ [] =
        .ok "%#v &\x7bfoo -2593 29384\x7d\n") :=
  ⟨rfl, rfl, output_same_when_writes_succeed ⟨.bits64, ["a", "b"], [("PATH", "/bin")], .complete⟩
    ⟨.bits32, [], [], .complete⟩ [] [⟨"x", 7, 9⟩] rfl rfl⟩

/-- C5: `main` returns normally on every run in which the write to standard
output succeeds: the allocation yields a non-nil pointer, each of the three field
stores through it succeeds, `fmt.Println` returns no error, and `main` returns
the state `fmt.Println` leaves. -/
theorem main_returns_normally (env : Env) (heap : List header)
    (hw : env.stdoutOk = true) :
    ∃ p s₁ s₂ s₃ s₄ n s₅,
      newHeader (State.start heap) = .ok (p, s₁) ∧ p ≠ none ∧
      assignValue1 p "foo" s₁ = .ok s₂ ∧
      assignValue2 env.arch p (-2593) s₂ = .ok s₃ ∧
      assignValue3 env.arch p 29384 s₃ = .ok s₄ ∧
      Println env [.string "%#v", .pointer p] s₄ = .ok ((n, none), s₅) ∧
      run env heap = .ok s₅ := by
  refine ⟨some heap.length,
    { heap := heap ++ [header.zero], stdout := "", assigned := [] },
    { heap := heap ++ [{ value1 := "foo", value2 := 0, value3 := 0 }], stdout := "",
      assigned := [(.value1, .text "foo")] },
    { heap := heap ++ [{ value1 := "foo", value2 := -2593, value3 := 0 }], stdout := "",
      assigned := [(.value1, .text "foo"), (.value2, .number (-2593))] },
    { heap := heap ++ [builtRecord], stdout := "", assigned := mainStores },
    mainLine.utf8ByteSize,
    { heap := heap ++ [builtRecord], stdout := mainLine, assigned := mainStores },
    ?_, ?_, ?_, ?_, ?_, ?_, run_eq_of_stdoutOk env heap hw⟩
  · simp [newHeader, State.start]
  · simp
  · simp [assignValue1, store, header.zero]
  · simp [assignValue2, store, toInt_lit]
  · simp [assignValue3, store, toUint_lit, builtRecord, mainStores]
  · have hp := doPrintln_built
      { heap := heap ++ [builtRecord], stdout := "", assigned := mainStores }
      heap.length (by simp)
    simp [Println, hp, write_complete_of_stdoutOk env hw]

theorem main_returns_normally_witness :
    (Env.stdoutOk ⟨.bits32, ["header"], [], .complete⟩ = true) ∧
    ∃ p s₁ s₂ s₃ s₄ n s₅,
      newHeader (State.start []) = .ok (p, s₁) ∧ p ≠ none ∧
      assignValue1 p "foo" s₁ = .ok s₂ ∧
      assignValue2 Arch.bits32 p (-2593) s₂ = .ok s₃ ∧
      assignValue3 Arch.bits32 p 29384 s₃ = .ok s₄ ∧
      Println ⟨.bits32, ["header"], [], .complete⟩ [.string "%#v", .pointer p] s₄ =
        .ok ((n, none), s₅) ∧
      run ⟨.bits32, ["header"], [], .complete⟩ [] = .ok s₅ :=
  ⟨rfl, main_returns_normally ⟨.bits32, ["header"], [], .complete⟩ [] rfl⟩

/-- C6: the only literal `main` stores in the unsigned field value3 is 29384,
which lies in the range of `uint`; the only negative literal stored is -2593 and
it goes to the signed field value2, within the range of `int`; neither store
wraps, and both literals appear in the printed line as written in the source. -/
theorem unsigned_field_never_negative (env : Env) (heap : List header)
    (hw : env.stdoutOk = true) :
    ∃ p s s₅, mainBeforePrint env (State.start heap) = .ok (p, s) ∧
      run env heap = .ok s₅ ∧
      (Field.value3, Literal.number 29384) ∈ s₅.assigned ∧
      (∀ lit, (Field.value3, lit) ∈ s₅.assigned → lit = .number 29384) ∧
      (∀ i, (Field.value3, Literal.number i) ∈ s₅.assigned →
        0 ≤ i ∧ i < 2 ^ env.arch.bits) ∧
      (∀ f i, (f, Literal.number i) ∈ s₅.assigned → i < 0 → f = .value2 ∧ i = -2593) ∧
      (∀ i, (Field.value2, Literal.number i) ∈ s₅.assigned →
        -(2 ^ (env.arch.bits - 1)) ≤ i ∧ i < 2 ^ (env.arch.bits - 1)) ∧
      toInt env.arch (-2593) = -2593 ∧ toUint env.arch 29384 = 29384 ∧
      (∃ r, load p s = .ok r ∧ r.value2 = -2593 ∧ r.value3 = 29384 ∧
        formatValue (.int r.value2) = "-2593" ∧ formatValue (.uint r.value3) = "29384") ∧
      "-2593".toList <:+: s₅.stdout.toList ∧
      "29384".toList <:+: s₅.stdout.toList := by
  refine ⟨_, _, _, mainBeforePrint_eq env (State.start heap),
    run_eq_of_stdoutOk env heap hw, ?_, ?_, ?_, ?_, ?_, toInt_lit _, toUint_lit _,
    ⟨builtRecord, ?_, rfl, rfl, by decide, by decide⟩,
    show "-2593".toList <:+: mainLine.toList by decide,
    show "29384".toList <:+: mainLine.toList by decide⟩
  · simp [mainStores]
  · intro lit h
    simpa [mainStores] using h
  · intro i h
    have hi : i = 29384 := by simpa [mainStores] using h
    subst hi
    cases env.arch <;> decide
  · intro f i h hneg
    simp only [mainStores, List.mem_cons, Prod.mk.injEq, List.mem_singleton,
      List.not_mem_nil, or_false, Literal.number.injEq] at h
    rcases h with ⟨_, hi⟩ | ⟨hf, hi⟩ | ⟨_, hi⟩
    · exact absurd hi (by simp)
    · exact ⟨hf, hi⟩
    · subst hi
      exact absurd hneg (by decide)
  · intro i h
    have hi : i = -2593 := by simpa [mainStores] using h
    subst hi
    cases env.arch <;> decide
  · simp [load, State.start]

theorem unsigned_field_never_negative_witness :
    (Env.stdoutOk ⟨.bits32, [], [], .complete⟩ = true) ∧
    ∃ p s s₅, mainBeforePrint ⟨.bits32, [], [], .complete⟩ (State.start []) = .ok (p, s) ∧
      run ⟨.bits32, [], [], .complete⟩ [] = .ok s₅ ∧
      (Field.value3, Literal.number 29384) ∈ s₅.assigned ∧
      (∀ lit, (Field.value3, lit) ∈ s₅.assigned → lit = .number 29384) ∧
      (∀ i, (Field.value3, Literal.number i) ∈ s₅.assigned →
        0 ≤ i ∧ i < 2 ^ Arch.bits32.bits) ∧
      (∀ f i, (f, Literal.number i) ∈ s₅.assigned → i < 0 → f = .value2 ∧ i = -2593) ∧
      (∀ i, (Field.value2, Literal.number i) ∈ s₅.assigned →
        -(2 ^ (Arch.bits32.bits - 1)) ≤ i ∧ i < 2 ^ (Arch.bits32.bits - 1)) ∧
      toInt .bits32 (-2593) = -2593 ∧ toUint .bits32 29384 = 29384 ∧
      (∃ r, load p s = .ok r ∧ r.value2 = -2593 ∧ r.value3 = 29384 ∧
        formatValue (.int r.value2) = "-2593" ∧ formatValue (.uint r.value3) = "29384") ∧
      "-2593".toList <:+: s₅.stdout.toList ∧
      "29384".toList <:+: s₅.stdout.toList :=
  ⟨rfl, unsigned_field_never_negative ⟨.bits32, [], [], .complete⟩ [] rfl⟩

/-- C7: `fmt.Println` does not interpret its first operand: the string `%#v` is
printed as it is, so the line starts with `%#v` followed by a space.  The record
is printed in the default format: the line is `%#v`, a space, the default
rendering `&{foo -2593 29384}` of the pointer operand, and a newline.  That
rendering is not the Go-syntax one, which names the type `header` and the fields
`value1`, `value2`, `value3`; the line contains none of these names and does not
contain the Go-syntax rendering. -/
theorem format_verb_printed_verbatim (env : Env) (heap : List header)
    (hw : env.stdoutOk = true) :
    ∃ s₅, run env heap = .ok s₅ ∧
      (∀ (s : State) (str : String), printArg s (.string str) = .ok str) ∧
      "%#v ".toList <+: s₅.stdout.toList ∧
      "%#v".toList <:+: s₅.stdout.toList ∧
      ¬ "header".toList <:+: s₅.stdout.toList ∧
      ¬ "value1".toList <:+: s₅.stdout.toList ∧
      ¬ "value2".toList <:+: s₅.stdout.toList ∧
      ¬ "value3".toList <:+: s₅.stdout.toList ∧
      ∃ p s r t, mainBeforePrint env (State.start heap) = .ok (p, s) ∧
        load p s = .ok r ∧
        r = { value1 := "foo", value2 := -2593, value3 := 29384 } ∧
        printArg s (.pointer p) = .ok t ∧
        t = "&" ++ formatStruct r.fields ∧
        t = "&\x7bfoo -2593 29384\x7d" ∧
        s₅.stdout = "%#v" ++ " " ++ t ++ "\n" ∧
        ∀ quote : String → String, ∃ g,
          printArgGoSyntax quote s (.pointer p) = .ok g ∧
          g = "&main.header\x7bvalue1:" ++ quote "foo" ++
            ", value2:-2593, value3:0x72c8\x7d" ∧
          g ≠ t ∧
          ¬ g.toList <:+: s₅.stdout.toList ∧
          "header".toList <:+: g.toList ∧
          "value1".toList <:+: g.toList ∧
          "value2".toList <:+: g.toList ∧
          "value3".toList <:+: g.toList := by
  have hno : ¬ "header".toList <:+: mainLine.toList := by decide
  have hhead : ∀ q : String, "header".toList <:+:
      ("&main.header\x7bvalue1:" ++ q ++ ", value2:-2593, value3:0x72c8\x7d").toList :=
    fun q => infix_of_infix_left _ _ q _ (by decide)
  refine ⟨_, run_eq_of_stdoutOk env heap hw, fun _ _ => rfl,
    show "%#v ".toList <+: mainLine.toList by decide,
    show "%#v".toList <:+: mainLine.toList by decide,
    hno,
    show ¬ "value1".toList <:+: mainLine.toList by decide,
    show ¬ "value2".toList <:+: mainLine.toList by decide,
    show ¬ "value3".toList <:+: mainLine.toList by decide,
    _, _, builtRecord, "&\x7bfoo -2593 29384\x7d",
    mainBeforePrint_eq env (State.start heap), ?_, rfl, ?_, ?_, rfl, ?_, fun quote => ?_⟩
  · simp [load, State.start]
  · exact printArg_built _ _ (by simp)
  · decide
  · show mainLine = _
    decide
  · refine ⟨_, printArgGoSyntax_built quote _ _ (by simp), rfl, goSyntax_ne_default _,
      fun h => hno ((hhead _).trans h), hhead _,
      infix_of_infix_left _ _ _ _ (by decide),
      infix_of_infix_right _ _ _ _ (by decide),
      infix_of_infix_right _ _ _ _ (by decide)⟩

theorem format_verb_printed_verbatim_witness :
    (Env.stdoutOk ⟨.bits64, ["%#v"], [], .complete⟩ = true) ∧
    ∃ s₅, run ⟨.bits64, ["%#v"], [], .complete⟩ [] = .ok s₅ ∧
      (∀ (s : State) (str : String), printArg s (.string str) = .ok str) ∧
      "%#v ".toList <+: s₅.stdout.toList ∧
      "%#v".toList <:+: s₅.stdout.toList ∧
      ¬ "header".toList <:+: s₅.stdout.toList ∧
      ¬ "value1".toList <:+: s₅.stdout.toList ∧
      ¬ "value2".toList <:+: s₅.stdout.toList ∧
      ¬ "value3".toList <:+: s₅.stdout.toList ∧
      ∃ p s r t, mainBeforePrint ⟨.bits64, ["%#v"], [], .complete⟩ (State.start []) =
          .ok (p, s) ∧
        load p s = .ok r ∧
        r = { value1 := "foo", value2 := -2593, value3 := 29384 } ∧
        printArg s (.pointer p) = .ok t ∧
        t = "&" ++ formatStruct r.fields ∧
        t = "&\x7bfoo -2593 29384\x7d" ∧
        s₅.stdout = "%#v" ++ " " ++ t ++ "\n" ∧
        ∀ quote : String → String, ∃ g,
          printArgGoSyntax quote s (.pointer p) = .ok g ∧
          g = "&main.header\x7bvalue1:" ++ quote "foo" ++
            ", value2:-2593, value3:0x72c8\x7d" ∧
          g ≠ t ∧
          ¬ g.toList <:+: s₅.stdout.toList ∧
          "header".toList <:+: g.toList ∧
          "value1".toList <:+: g.toList ∧
          "value2".toList <:+: g.toList ∧
          "value3".toList <:+: g.toList :=
  ⟨rfl, format_verb_printed_verbatim ⟨.bits64, ["%#v"], [], .complete⟩ [] rfl⟩

/-- C8: the text a run of `main` writes to standard output is exactly
`%#v &{foo -2593 29384}` followed by one newline: the first operand, a space,
an ampersand, and between braces the three fields of the record in declaration
order separated by single spaces, the string as it is and the integers in
base 10. -/
theorem output_exact (env : Env) (heap : List header) (hw : env.stdoutOk = true) :
    ∃ s₅, run env heap = .ok s₅ ∧
      s₅.stdout = "%#v &\x7bfoo -2593 29384\x7d\n" ∧
      ∃ p s r, mainBeforePrint env (State.start heap) = .ok (p, s) ∧
        load p s = .ok r ∧
        s₅.stdout =
          "%#v" ++ " " ++ ("&" ++ ("\x7b" ++ (formatValue (.string r.value1) ++ " " ++
            (formatValue (.int r.value2) ++ " " ++ formatValue (.uint r.value3))) ++
            "\x7d")) ++ "\n" ∧
        formatValue (.string r.value1) = "foo" ∧
        formatValue (.int r.value2) = "-2593" ∧
        formatValue (.uint r.value3) = "29384" := by
  refine ⟨_, run_eq_of_stdoutOk env heap hw, rfl, _, _, builtRecord,
    mainBeforePrint_eq env (State.start heap), ?_, ?_, ?_, ?_, ?_⟩
  · simp [load, State.start]
  · show mainLine = _
    decide
  · rfl
  · decide
  · decide

theorem output_exact_witness :
    (Env.stdoutOk ⟨.bits64, [], [], .complete⟩ = true) ∧
    ∃ s₅, run ⟨.bits64, [], [], .complete⟩ [] = .ok s₅ ∧
      s₅.stdout = "%#v &\x7bfoo -2593 29384\x7d\n" ∧
      ∃ p s r, mainBeforePrint ⟨.bits64, [], [], .complete⟩ (State.start []) = .ok (p, s) ∧
        load p s = .ok r ∧
        s₅.stdout =
          "%#v" ++ " " ++ ("&" ++ ("\x7b" ++ (formatValue (.string r.value1) ++ " " ++
            (formatValue (.int r.value2) ++ " " ++ formatValue (.uint r.value3))) ++
            "\x7d")) ++ "\n" ∧
        formatValue (.string r.value1) = "foo" ∧
        formatValue (.int r.value2) = "-2593" ∧
        formatValue (.uint r.value3) = "29384" :=
  ⟨rfl, output_exact ⟨.bits64, [], [], .complete⟩ [] rfl⟩

end Golinterror
